import Mathlib

/-!
Shallow embedding of the Blivalley project/task/session tracking
application: the Project aggregate (milestones owning tasks), the Session
entity, the User aggregate, and the API route handlers that mutate them.
Mongoose ObjectIds are abstracted as naturals, timestamps (JS Date,
milliseconds) as naturals, and the database collections as Lean lists.
Each handler is translated from its route file; authentication plumbing is
abstracted by passing the authenticated userId as an argument.
-/

namespace Blivalley

/-- Status domain for milestones and tasks (Project.ts enum
['not_started', 'in_progress', 'completed']). -/
inductive TStatus
  | not_started
  | in_progress
  | completed
deriving DecidableEq, Repr

/-- Project status domain (Project.ts enum ['active', 'completed',
'archived']). -/
inductive PStatus
  | active
  | completed
  | archived
deriving DecidableEq, Repr

/-- Session status domain (models/Session.ts enum ['active',
'completed']). -/
inductive SStatus
  | active
  | completed
deriving DecidableEq, Repr

/-- Parse a task/milestone status string as the route handlers validate it:
['not_started', 'in_progress', 'completed'].includes(body.status).
The JS handlers first test !body.status; the empty string is falsy and is
also outside the enum list, so a single parse covers both checks. -/
def TStatus.parse? (s : String) : Option TStatus :=
  if s = "not_started" then some TStatus.not_started
  else if s = "in_progress" then some TStatus.in_progress
  else if s = "completed" then some TStatus.completed
  else none

/-- Parse a project status string as projects/[id]/route.ts validates it:
['active', 'completed', 'archived'].includes(body.status). -/
def PStatus.parse? (s : String) : Option PStatus :=
  if s = "active" then some PStatus.active
  else if s = "completed" then some PStatus.completed
  else if s = "archived" then some PStatus.archived
  else none

/-- Denormalized last-session summary stored on a task
(Project.ts lastSession subdocument). -/
structure LastSession where
  timestamp : Nat
  note : String
deriving DecidableEq, Repr

/-- Task subdocument of a milestone (Project.ts TaskSchema). -/
structure Task where
  id : Nat
  name : String
  status : TStatus
  notes : String
  lastSession : Option LastSession
deriving DecidableEq, Repr

/-- Milestone subdocument of a project (Project.ts MilestoneSchema). -/
structure Milestone where
  id : Nat
  name : String
  status : TStatus
  tasks : List Task
deriving DecidableEq, Repr

/-- Project document (Project.ts ProjectSchema). -/
structure Project where
  id : Nat
  userId : Nat
  name : String
  description : String
  category : String
  status : PStatus
  progress : Nat
  deadline : Option Nat
  milestones : List Milestone
  autoStart : Bool
  notifications : Bool
deriving DecidableEq, Repr

/-- Total number of tasks over all milestones, as computed by
calculateProgress in Project.ts: milestones.reduce(acc + tasks.length). -/
def totalTasks (p : Project) : Nat :=
  p.milestones.foldl (fun acc m => acc + m.tasks.length) 0

/-- Number of completed tasks over all milestones, as computed by
calculateProgress in Project.ts:
milestones.reduce(acc + tasks.filter(status === completed).length). -/
def completedTasks (p : Project) : Nat :=
  p.milestones.foldl
    (fun acc m => acc + (m.tasks.filter (fun t => t.status == TStatus.completed)).length) 0

/-- calculateProgress from Project.ts: 0 when there are no tasks,
otherwise Math.round((completedTasks / totalTasks) * 100). Math.round
rounds half upward: Math.round(x) = floor(x + 1/2), so over the exact
rationals the result is floor(100·c/t + 1/2) = (200·c + t) / (2·t) in
natural division; the equality with Mathlib round of the rational is
proved in natRound_eq_round below. -/
def calculateProgress (p : Project) : Nat :=
  if totalTasks p = 0 then 0
  else (200 * completedTasks p + totalTasks p) / (2 * totalTasks p)

/-- The executable natural-division rounding used by calculateProgress
agrees with the exact rational rounding round(c/t·100) of Math.round. -/
theorem natRound_eq_round (c t : ℕ) (ht : 0 < t) :
    (((200 * c + t) / (2 * t) : ℕ) : ℤ) = round ((c : ℚ) / t * 100) := by
  rw [round_eq]
  have htq : (t : ℚ) ≠ 0 := Nat.cast_ne_zero.mpr ht.ne'
  have h1 : (c : ℚ) / t * 100 + 1 / 2
      = (((200 * c + t : ℕ) : ℤ) : ℚ) / ((2 * t : ℕ) : ℚ) := by
    push_cast
    field_simp
    ring
  rw [h1, Rat.floor_intCast_div_natCast]
  exact Int.natCast_div (200 * c + t) (2 * t)

/-- The pre('save') middleware of ProjectSchema: when the milestones path
was modified by the pending changes, progress is recomputed by
calculateProgress; otherwise the document is stored as is. -/
def saveProject (milestonesModified : Bool) (p : Project) : Project :=
  if milestonesModified then { p with progress := calculateProgress p } else p

example : calculateProgress
    { id := 1, userId := 1, name := "p", description := "", category := "other",
      status := PStatus.active, progress := 0, deadline := none,
      milestones := [⟨1, "m", TStatus.not_started,
        [⟨1, "t1", TStatus.completed, "", none⟩,
         ⟨2, "t2", TStatus.not_started, "", none⟩,
         ⟨3, "t3", TStatus.not_started, "", none⟩]⟩],
      autoStart := false, notifications := true } = 33 := by decide

/-- Replace the first element satisfying p by its image under f, leaving
everything else unchanged: the effect of mutating the document returned by
a find-style lookup, or of findOneAndUpdate. -/
def updateFirst (p : α → Bool) (f : α → α) : List α → List α
  | [] => []
  | a :: l => if p a then f a :: l else a :: updateFirst p f l

/-- JS truthiness of an optional string field of a request body: present
and not the empty string. -/
def strTruthy : Option String → Bool
  | none => false
  | some s => s ≠ ""

/-- The trim the mongoose schema setters apply (JS String.prototype.trim),
written over the character list so that it evaluates inside the kernel. -/
def jsTrim (s : String) : String :=
  ⟨((s.data.dropWhile Char.isWhitespace).reverse.dropWhile Char.isWhitespace).reverse⟩

/-- JS String.prototype.toLowerCase restricted to the ASCII range, written
over the character list so that it evaluates inside the kernel. -/
def jsToLower (s : String) : String := ⟨s.data.map Char.toLower⟩

/-- Session document of the live schema in src/models/Session.ts, the
model every route imports: userId, projectId, milestoneId, taskId,
startTime, optional endTime, status in {active, completed}, note. The
older schema variant kept alongside it (isActive, duration, activities,
snapshot) is not registered with mongoose, so those are not paths of
stored documents. -/
structure SessionDoc where
  id : Nat
  userId : Nat
  projectId : Nat
  milestoneId : Nat
  taskId : Nat
  startTime : Nat
  endTime : Option Nat
  status : SStatus
  note : String
deriving DecidableEq, Repr

/-- Whole-application persistent state: the projects and sessions
collections, plus a counter supplying the ids Mongo would generate. -/
structure AppState where
  projects : List Project
  sessions : List SessionDoc
  nextId : Nat
deriving DecidableEq, Repr

/-- Outcome of a route handler: a JSON payload with an HTTP status, or an
error JSON with its HTTP status and message. -/
inductive ApiResult (α : Type)
  | ok (status : Nat) (val : α)
  | err (status : Nat) (msg : String)
deriving DecidableEq, Repr

/-- POST /api/sessions (api/sessions/route.ts): validate the ids, check
the project exists and belongs to the user, refuse when the user already
has a session with status active, otherwise create an active session with
an empty note starting now. Request-body ids are Option Nat; none models
an absent (falsy) field. -/
def sessionsPOST (now uid : Nat) (projectId milestoneId taskId : Option Nat)
    (st : AppState) : ApiResult SessionDoc × AppState :=
  match projectId, milestoneId, taskId with
  | some pid, some mid, some tid =>
    match st.projects.find? (fun p => p.id == pid && p.userId == uid) with
    | none => (ApiResult.err 404 "Project not found", st)
    | some _ =>
      match st.sessions.find? (fun s => s.userId == uid && s.status == SStatus.active) with
      | some _ => (ApiResult.err 400 "You already have an active session", st)
      | none =>
        let newSession : SessionDoc :=
          { id := st.nextId, userId := uid, projectId := pid, milestoneId := mid,
            taskId := tid, startTime := now, endTime := none,
            status := SStatus.active, note := "" }
        (ApiResult.ok 200 newSession,
         { st with sessions := st.sessions ++ [newSession], nextId := st.nextId + 1 })
  | _, _, _ =>
      (ApiResult.err 400 "Project ID, milestone ID, and task ID are required", st)

/-- The update applied by findOneAndUpdate in the PUT /api/sessions
handler: status completed, endTime now, note := body.note || ''. -/
def endSessionUpdate (now : Nat) (note : Option String) (s : SessionDoc) : SessionDoc :=
  { s with status := SStatus.completed, endTime := some now, note := note.getD "" }

/-- PUT /api/sessions (api/sessions/route.ts): end a session by id via
findOneAndUpdate filtered on the requesting user, setting status
completed, endTime, and the note (empty when absent). -/
def sessionsPUT (now uid : Nat) (sessionId : Option Nat) (note : Option String)
    (st : AppState) : ApiResult SessionDoc × AppState :=
  match sessionId with
  | none => (ApiResult.err 400 "Session ID is required", st)
  | some sid =>
    match st.sessions.find? (fun s => s.id == sid && s.userId == uid) with
    | none => (ApiResult.err 404 "Session not found", st)
    | some s =>
      let sessions' := updateFirst (fun s => s.id == sid && s.userId == uid)
        (endSessionUpdate now note) st.sessions
      (ApiResult.ok 200 (endSessionUpdate now note s), { st with sessions := sessions' })

/-- Body of a PUT /api/sessions/[id] request: optional session note,
optional task status and task note for the denormalization step, optional
environment snapshot. -/
structure IdPutBody where
  note : Option String
  taskStatus : Option String
  taskNote : Option String
  snapshot : Option Nat
deriving DecidableEq, Repr

/-- PUT /api/sessions/[id] (api/sessions/[id]/route.ts) run against the
live Session schema: after the session owned by the user is found, the
handler assigns isActive and duration (plain JS properties, since they
are not schema paths) and endTime and possibly note (in memory only),
and then evaluates sessionData.activities.push. The activities path does
not exist on the live model, so the access yields undefined and the push
raises a TypeError before sessionData.save() or any project lookup is
reached; the catch block answers 500 "Failed to update session" and
nothing is persisted. A missing session answers 404. Both outcomes leave
the state unchanged. -/
def sessionsIdPUT (now uid sid : Nat) (body : IdPutBody)
    (st : AppState) : ApiResult SessionDoc × AppState :=
  match st.sessions.find? (fun s => s.id == sid && s.userId == uid) with
  | none => (ApiResult.err 404 "Session not found", st)
  | some _ => (ApiResult.err 500 "Failed to update session", st)

/-- One session API operation: create via POST /api/sessions, end via PUT
/api/sessions, or end via PUT /api/sessions/[id]. -/
inductive SessionOp
  | post (now uid : Nat) (projectId milestoneId taskId : Option Nat)
  | putBulk (now uid : Nat) (sessionId : Option Nat) (note : Option String)
  | putId (now uid sid : Nat) (body : IdPutBody)
deriving DecidableEq, Repr

/-- Apply a session API operation to the state, discarding the HTTP
response. -/
def applyOp (op : SessionOp) (st : AppState) : AppState :=
  match op with
  | SessionOp.post now uid pid mid tid => (sessionsPOST now uid pid mid tid st).2
  | SessionOp.putBulk now uid sid note => (sessionsPUT now uid sid note st).2
  | SessionOp.putId now uid sid body => (sessionsIdPUT now uid sid body st).2

/-- Apply a sequence of session API operations in order. -/
def execList (ops : List SessionOp) (st : AppState) : AppState :=
  ops.foldl (fun s op => applyOp op s) st

/-- Number of sessions of a user with status active: the notion of active
session the handlers themselves query ({ userId, status: 'active' }). -/
def activeCount (uid : Nat) (st : AppState) : Nat :=
  (st.sessions.filter (fun s => s.userId == uid && s.status == SStatus.active)).length

/-- The task mutation of the task-status PUT handler: overwrite the
status; when the new status is in_progress and a note is supplied, set
lastSession to the current time and that note. -/
def applyTaskUpdate (now : Nat) (st : TStatus) (note : Option String) (t : Task) : Task :=
  let t1 := { t with status := st }
  if st == TStatus.in_progress && strTruthy note
    then { t1 with lastSession := some ⟨now, note.getD ""⟩ }
    else t1

/-- Milestone status recomputation of the task-status PUT handler:
completed when every task is completed, else in_progress when some task is
in_progress, else not_started when every task is not_started, else the
previous status. -/
def milestoneStatusFromTasks (old : TStatus) (ts : List Task) : TStatus :=
  if ts.all (fun t => t.status == TStatus.completed) then TStatus.completed
  else if ts.any (fun t => t.status == TStatus.in_progress) then TStatus.in_progress
  else if ts.all (fun t => t.status == TStatus.not_started) then TStatus.not_started
  else old

/-- Response payload of the task-status PUT handler: the updated task
fields, the updated milestone status, and the saved project progress. -/
structure TaskStatusOk where
  taskId : Nat
  taskStatus : TStatus
  taskLastSession : Option LastSession
  milestoneId : Nat
  milestoneStatus : TStatus
  projectId : Nat
  progress : Nat
deriving DecidableEq, Repr

/-- PUT task-status handler
(api/projects/[id]/milestones/[milestoneId]/tasks/[taskId]/status):
validate the status, find the project/milestone/task, update the task,
recompute the milestone status from the tasks, and save the project
(recomputing progress since milestones changed). -/
def taskStatusPUT (now uid pid mid tid : Nat) (statusStr : String)
    (note : Option String) (ps : List Project) : ApiResult TaskStatusOk × List Project :=
  match TStatus.parse? statusStr with
  | none => (ApiResult.err 400 "Invalid status value", ps)
  | some stNew =>
    match ps.find? (fun p => p.id == pid && p.userId == uid) with
    | none => (ApiResult.err 404 "Project not found", ps)
    | some proj =>
      match proj.milestones.find? (fun m => m.id == mid) with
      | none => (ApiResult.err 404 "Milestone not found", ps)
      | some ms =>
        match ms.tasks.find? (fun t => t.id == tid) with
        | none => (ApiResult.err 404 "Task not found", ps)
        | some t =>
          let t' := applyTaskUpdate now stNew note t
          let tasks' := updateFirst (fun x => x.id == tid) (fun _ => t') ms.tasks
          let newMsStatus := milestoneStatusFromTasks ms.status tasks'
          let ms' := { ms with status := newMsStatus, tasks := tasks' }
          let milestones' := updateFirst (fun m => m.id == mid) (fun _ => ms') proj.milestones
          let proj' := saveProject true { proj with milestones := milestones' }
          let ps' := updateFirst (fun p => p.id == pid && p.userId == uid) (fun _ => proj') ps
          (ApiResult.ok 200
            { taskId := tid, taskStatus := t'.status, taskLastSession := t'.lastSession,
              milestoneId := mid, milestoneStatus := ms'.status,
              projectId := proj'.id, progress := proj'.progress }, ps')

/-- Task-list mutation of the milestone-status PUT handler: completed
marks every task completed; in_progress, when some task is not_started,
sets the first such task to in_progress; other statuses leave tasks
alone. -/
def milestoneTasksUpdate (stNew : TStatus) (ts : List Task) : List Task :=
  if stNew == TStatus.completed then
    ts.map (fun t => { t with status := TStatus.completed })
  else if stNew == TStatus.in_progress && ts.any (fun t => t.status == TStatus.not_started) then
    updateFirst (fun t => t.status == TStatus.not_started)
      (fun t => { t with status := TStatus.in_progress }) ts
  else ts

/-- Response payload of the milestone-status PUT handler. -/
structure MilestoneStatusOk where
  milestoneId : Nat
  milestoneStatus : TStatus
  projectId : Nat
  progress : Nat
deriving DecidableEq, Repr

/-- PUT milestone-status handler
(api/projects/[id]/milestones/[milestoneId]/status/route.ts): validate the
status, find the project and milestone, set the milestone status, cascade
to the tasks (all completed, or first not_started to in_progress), and
save the project. -/
def milestoneStatusPUT (uid pid mid : Nat) (statusStr : String)
    (ps : List Project) : ApiResult MilestoneStatusOk × List Project :=
  match TStatus.parse? statusStr with
  | none => (ApiResult.err 400 "Invalid status value", ps)
  | some stNew =>
    match ps.find? (fun p => p.id == pid && p.userId == uid) with
    | none => (ApiResult.err 404 "Project not found", ps)
    | some proj =>
      match proj.milestones.find? (fun m => m.id == mid) with
      | none => (ApiResult.err 404 "Milestone not found", ps)
      | some ms =>
        let ms' := { ms with status := stNew, tasks := milestoneTasksUpdate stNew ms.tasks }
        let milestones' := updateFirst (fun m => m.id == mid) (fun _ => ms') proj.milestones
        let proj' := saveProject true { proj with milestones := milestones' }
        let ps' := updateFirst (fun p => p.id == pid && p.userId == uid) (fun _ => proj') ps
        (ApiResult.ok 200
          { milestoneId := mid, milestoneStatus := ms'.status,
            projectId := proj'.id, progress := proj'.progress }, ps')

/-- PUT project-status handler (api/projects/[id]/route.ts): validate the
status against the project domain, find the project, set its status and
save; only the status path changes, so the pre-save hook does not
recompute progress. -/
def projectStatusPUT (uid pid : Nat) (statusStr : String)
    (ps : List Project) : ApiResult Project × List Project :=
  match PStatus.parse? statusStr with
  | none => (ApiResult.err 400 "Invalid status value", ps)
  | some stNew =>
    match ps.find? (fun p => p.id == pid && p.userId == uid) with
    | none => (ApiResult.err 404 "Project not found", ps)
    | some proj =>
      let proj' := saveProject false { proj with status := stNew }
      let ps' := updateFirst (fun p => p.id == pid && p.userId == uid) (fun _ => proj') ps
      (ApiResult.ok 200 proj', ps')

/-- A task in the body of POST /api/projects: either a bare string or an
object with a name, an optional status string and optional notes. -/
inductive TaskInput
  | str (name : String)
  | obj (name : String) (status : Option String) (notes : Option String)
deriving DecidableEq, Repr

/-- A milestone in the body of POST /api/projects; an absent task list is
modelled by the empty list (the handler maps it to [] anyway). -/
structure MilestoneInput where
  name : String
  tasks : List TaskInput
deriving DecidableEq, Repr

/-- Body of POST /api/projects. Option fields model absent JSON fields;
statusStr is the raw project status string (validated only by the schema
enum at save time), settings booleans mirror body.settings. -/
structure ProjectPostBody where
  name : String
  description : Option String
  category : String
  statusStr : Option String
  deadline : Option Nat
  milestones : List MilestoneInput
  settingsAutoStart : Option Bool
  settingsNotifications : Option Bool
deriving DecidableEq, Repr

/-- Map an index-aware optional transformation over a list, failing when
any element fails: the shape of body.milestones?.map / milestone.tasks?.map
combined with the save-time schema validation, with subdocument ids
assigned positionally. -/
def optionMapIdx {β : Type} (f : Nat → α → Option β) : Nat → List α → Option (List β)
  | _, [] => some []
  | i, a :: l =>
    match f i a, optionMapIdx f (i + 1) l with
    | some b, some bs => some (b :: bs)
    | _, _ => none

/-- The milestone transformation of POST /api/projects applied to one
task: a bare string becomes a not_started task with empty notes; an
object keeps its status string (not_started when absent or falsy) and
notes. The status string is validated by the TaskSchema enum when the
project is saved: an invalid one aborts the create, hence none. Names
are trimmed and required by the schema. Subdocument ids are assigned
positionally. -/
def parseTaskInput (i : Nat) (t : TaskInput) : Option Task :=
  match t with
  | TaskInput.str n =>
    if jsTrim n = "" then none
    else some { id := i, name := jsTrim n, status := TStatus.not_started,
                notes := "", lastSession := none }
  | TaskInput.obj n s notes =>
    if jsTrim n = "" then none
    else
      match (if strTruthy s then TStatus.parse? (s.getD "") else some TStatus.not_started) with
      | none => none
      | some stNew =>
        some { id := i, name := jsTrim n, status := stNew,
               notes := notes.getD "", lastSession := none }

/-- The milestone transformation of POST /api/projects: the milestone
status is forced to not_started regardless of the input, and the tasks
are transformed by parseTaskInput. -/
def parseMilestoneInput (j : Nat) (m : MilestoneInput) : Option Milestone :=
  if jsTrim m.name = "" then none
  else
    match optionMapIdx parseTaskInput 0 m.tasks with
    | none => none
    | some ts =>
      some { id := j, name := jsTrim m.name, status := TStatus.not_started, tasks := ts }

/-- The allowed project categories of ProjectSchema. -/
def categoryOK (c : String) : Bool :=
  c == "design" || c == "development" || c == "writing" || c == "marketing" ||
  c == "business" || c == "education" || c == "personal" || c == "home" || c == "other"

/-- POST /api/projects (api/projects/route.ts): require name and category,
transform the milestones (statuses forced to not_started, task statuses
kept or defaulted), and create the project with progress 0; the create
runs the save middleware, which recomputes progress since the milestones
path is set on a new document. Schema validation (name and category
domains, enum statuses) failing at create yields a 500 with no project
stored. -/
def projectsPOST (freshId uid : Nat) (body : ProjectPostBody)
    (ps : List Project) : ApiResult Project × List Project :=
  if body.name = "" || body.category = "" then
    (ApiResult.err 400 "Name and category are required", ps)
  else
    match optionMapIdx parseMilestoneInput 0 body.milestones with
    | none => (ApiResult.err 500 "Failed to create project", ps)
    | some ms =>
      match (if strTruthy body.statusStr
             then PStatus.parse? (body.statusStr.getD "")
             else some PStatus.active) with
      | none => (ApiResult.err 500 "Failed to create project", ps)
      | some pst =>
        if jsTrim body.name = "" || !(categoryOK body.category) then
          (ApiResult.err 500 "Failed to create project", ps)
        else
          let p0 : Project :=
            { id := freshId, userId := uid, name := jsTrim body.name,
              description := jsTrim (body.description.getD ""),
              category := body.category, status := pst, progress := 0,
              deadline := body.deadline, milestones := ms,
              autoStart := body.settingsAutoStart.getD false,
              notifications := body.settingsNotifications.getD false || true }
          let p := saveProject true p0
          (ApiResult.ok 200 p, ps ++ [p])

/-- All splittings of a list into a prior part and a suffix, in order. -/
def splitsOf : List Char → List (List Char × List Char)
  | [] => [([], [])]
  | a :: l => ([], a :: l) :: (splitsOf l).map (fun q => (a :: q.1, q.2))

/-- A character matched by the class [^\s@] of the registration email
regex: not whitespace and not the at sign (JS \s modelled by
Char.isWhitespace). -/
def plainChar (c : Char) : Bool := !c.isWhitespace && c != '@'

/-- The email format check of POST /api/auth/register:
the regex [caret][^\s@]+@[^\s@]+\.[^\s@]+$ holds exactly when the string
splits as local@rest with rest = mid.tail, all three parts nonempty and
free of whitespace and at signs (dots may occur anywhere else). -/
def emailRegexOK (s : String) : Bool :=
  (splitsOf s.toList).any (fun q =>
    match q.2 with
    | '@' :: rest =>
      !q.1.isEmpty && q.1.all plainChar &&
      (splitsOf rest).any (fun r =>
        match r.2 with
        | '.' :: tl => !r.1.isEmpty && r.1.all plainChar && !tl.isEmpty && tl.all plainChar
        | _ => false)
    | _ => false)

/-- A word character of the JS regex class \w: ASCII letter, digit or
underscore. -/
def wordChar (c : Char) : Bool := c.isAlpha || c.isDigit || c == '_'

/-- Continuation matcher for \w+([\.-]?\w+)* after one word character was
consumed: word characters continue freely, a dot or dash must be followed
by a word character, and the string may end. -/
def chunkAux : List Char → Bool
  | [] => true
  | c :: rest =>
    if wordChar c then chunkAux rest
    else if c == '.' || c == '-' then
      match rest with
      | [] => false
      | d :: rest2 => wordChar d && chunkAux rest2
    else false

/-- Matcher for the pattern \w+([\.-]?\w+)* used for the local part and
the domain stem of the User model email validator: nonempty, begins and
ends with a word character, and never has two adjacent separators. -/
def chunkPat : List Char → Bool
  | [] => false
  | c :: rest => wordChar c && chunkAux rest

/-- Matcher for (\.\w{2,3})+ of the User model email validator: one or
more groups of a dot followed by two or three word characters. -/
def tldGroups : List Char → Bool
  | '.' :: c1 :: c2 :: [] => wordChar c1 && wordChar c2
  | '.' :: c1 :: c2 :: c3 :: rest2 =>
    wordChar c1 && wordChar c2 &&
    ((wordChar c3 && (rest2.isEmpty || tldGroups rest2)) || tldGroups (c3 :: rest2))
  | _ => false

/-- The email validator of UserSchema in models/User.ts: the regex
[caret]\w+([\.-]?\w+)*@\w+([\.-]?\w+)*(\.\w{2,3})+$ — a word-chunk local
part, an at sign, a word-chunk domain stem and one or more dot groups of
two or three word characters. Stricter than the route regex: for example
a four-letter label after the final dot is rejected. -/
def userModelEmailOK (s : String) : Bool :=
  (splitsOf s.toList).any (fun q =>
    match q.2 with
    | '@' :: rest =>
      chunkPat q.1 &&
      (splitsOf rest).any (fun r => chunkPat r.1 && tldGroups r.2)
    | _ => false)

/-- The normalization the UserSchema email path applies before storing or
comparing: trim, then lowercase. -/
def normEmail (s : String) : String := jsToLower (jsTrim s)

/-- User document (models/User.ts), with the nested settings flattened.
photoURL and authId are optional. -/
structure User where
  id : Nat
  email : String
  displayName : String
  photoURL : Option String
  authProvider : String
  authId : Option String
  password : String
  theme : String
  notifications : Bool
  captureEnabled : Bool
  captureApps : Bool
  captureBrowsers : Bool
  saveLocation : String
deriving DecidableEq, Repr

/-- Schema validation run when a User document is saved: the email must
pass the model regex, the trimmed display name is required, the auth
provider must be in its enum, and a password is required for the email
provider. -/
def validUserDoc (u : User) : Bool :=
  userModelEmailOK u.email && u.displayName ≠ "" &&
  (u.authProvider == "google" || u.authProvider == "apple" ||
   u.authProvider == "github" || u.authProvider == "email") &&
  (u.authProvider != "email" || u.password != "")

/-- The sanitized registration response: only the id, email and display
name of the new user (the password is never part of it). -/
structure RegisteredUser where
  id : Nat
  email : String
  displayName : String
deriving DecidableEq, Repr

/-- The unique compound index of UserSchema on (authProvider, authId):
it is not sparse, a missing authId indexes as null, and inserting a
document whose pair collides with a stored one raises a duplicate-key
error (E11000). -/
def authIndexConflict (u : User) (users : List User) : Bool :=
  users.any (fun v => v.authProvider == u.authProvider && v.authId == u.authId)

/-- POST /api/auth/register (the registration route): require the three
fields, check the email format regex, require at least 8 password
characters, refuse an already registered email with 409, otherwise create
the user with authProvider email and default settings. The password is
hashed by the pre-save hook of the User model, modelled by the function
argument hash. User.create fails with 500 when the model-level schema
validation rejects (notably the stricter email validator), and also when
the insert violates the unique (authProvider, authId) index: email
registrations never set authId, so a stored email-provider user makes
every further registration collide on ('email', null). -/
def registerPOST (hash : String → String) (freshId : Nat)
    (name email password : String) (users : List User) :
    ApiResult RegisteredUser × List User :=
  if name = "" || email = "" || password = "" then
    (ApiResult.err 400 "Missing required fields", users)
  else if !(emailRegexOK email) then
    (ApiResult.err 400 "Invalid email format", users)
  else if password.length < 8 then
    (ApiResult.err 400 "Password must be at least 8 characters long", users)
  else
    match users.find? (fun u => u.email == normEmail email) with
    | some _ => (ApiResult.err 409 "Email already registered", users)
    | none =>
      let candidate : User :=
        { id := freshId, email := normEmail email, displayName := jsTrim name,
          photoURL := none, authProvider := "email", authId := none,
          password := password, theme := "system", notifications := true,
          captureEnabled := true, captureApps := true, captureBrowsers := true,
          saveLocation := "local" }
      if validUserDoc candidate then
        if authIndexConflict candidate users then
          (ApiResult.err 500 "Failed to create user", users)
        else
          let stored := { candidate with password := hash password }
          (ApiResult.ok 201
            { id := stored.id, email := stored.email, displayName := stored.displayName },
           users ++ [stored])
      else
        (ApiResult.err 500 "Failed to create user", users)

section UpdateFirstLemmas

variable {α : Type}

/-- If find? locates a and f keeps the predicate true on a, then find?
after updateFirst locates the image f a. -/
theorem find?_updateFirst (p : α → Bool) (f : α → α) (l : List α) (a : α)
    (h : l.find? p = some a) (hfa : p (f a) = true) :
    (updateFirst p f l).find? p = some (f a) := by
  induction l with
  | nil => simp at h
  | cons x l ih =>
    by_cases hx : p x = true
    · have hax : a = x := by
        have := List.find?_cons_of_pos (p := p) l hx
        rw [this] at h
        exact (Option.some_injective _ h.symm)
      subst hax
      simp [updateFirst, hx, List.find?_cons_of_pos _ hfa]
    · have hx' : p x = false := by simpa using hx
      rw [List.find?_cons_of_neg _ hx] at h
      simp [updateFirst, hx', List.find?_cons_of_neg _ hx, ih h]

/-- Every element of updateFirst p f l is an element of l or the image
under f of an element of l satisfying p. -/
theorem mem_updateFirst (p : α → Bool) (f : α → α) (l : List α) (b : α)
    (h : b ∈ updateFirst p f l) : b ∈ l ∨ ∃ a, a ∈ l ∧ p a = true ∧ b = f a := by
  induction l with
  | nil => simp [updateFirst] at h
  | cons x l ih =>
    by_cases hx : p x = true
    · simp only [updateFirst, hx, if_true, List.mem_cons] at h
      rcases h with h | h
      · exact Or.inr ⟨x, List.mem_cons_self x l, hx, h⟩
      · exact Or.inl (List.mem_cons_of_mem x h)
    · have hx' : p x = false := by simpa using hx
      simp only [updateFirst, hx', Bool.false_eq_true, if_false, List.mem_cons] at h
      rcases h with h | h
      · exact Or.inl (h ▸ List.mem_cons_self x l)
      · rcases ih h with h1 | ⟨a, ha, hpa, hb⟩
        · exact Or.inl (List.mem_cons_of_mem x h1)
        · exact Or.inr ⟨a, List.mem_cons_of_mem x ha, hpa, hb⟩

/-- An element on which the predicate fails is untouched by
updateFirst. -/
theorem mem_updateFirst_of_not (p : α → Bool) (f : α → α) (l : List α) (a : α)
    (ha : a ∈ l) (hpa : p a = false) : a ∈ updateFirst p f l := by
  induction l with
  | nil => simp at ha
  | cons x l ih =>
    rcases List.mem_cons.mp ha with h | h
    · subst h
      simp [updateFirst, hpa]
    · by_cases hx : p x = true
      · simp [updateFirst, hx, List.mem_cons_of_mem _ h]
      · have hx' : p x = false := by simpa using hx
        simp only [updateFirst, hx', Bool.false_eq_true, if_false, List.mem_cons]
        exact Or.inr (ih h)

/-- When f turns the counted predicate false, updateFirst cannot increase
the count of elements satisfying it. -/
theorem length_filter_updateFirst_le (p q : α → Bool) (f : α → α) (l : List α)
    (hf : ∀ a, q (f a) = false) :
    ((updateFirst p f l).filter q).length ≤ (l.filter q).length := by
  induction l with
  | nil => simp [updateFirst]
  | cons x l ih =>
    by_cases hx : p x = true
    · simp only [updateFirst, hx, if_true, List.filter_cons]
      cases hqx : q x <;> cases hqfx : q (f x) <;>
        simp_all [hf x, List.length_cons, Nat.le_succ_of_le]
    · have hx' : p x = false := by simpa using hx
      simp only [updateFirst, hx', Bool.false_eq_true, if_false, List.filter_cons]
      cases hqx : q x <;> simp [ih, Nat.succ_le_succ ih]

/-- When some element of l satisfies p, updateFirst rewrites exactly the
first such element, at its index, and leaves every earlier element (which
fails p) and every later element unchanged. -/
theorem updateFirst_exists_set (p : α → Bool) (f : α → α) (l : List α)
    (h : ∃ a ∈ l, p a = true) :
    ∃ (k : Nat) (hk : k < l.length),
      p (l.get ⟨k, hk⟩) = true ∧
      (∀ j (hj : j < l.length), j < k → p (l.get ⟨j, hj⟩) = false) ∧
      updateFirst p f l = l.set k (f (l.get ⟨k, hk⟩)) := by
  induction l with
  | nil => simp at h
  | cons x l ih =>
    by_cases hx : p x = true
    · exact ⟨0, Nat.succ_pos _, hx, fun j hj hj0 => absurd hj0 (Nat.not_lt_zero j),
        by simp [updateFirst, hx]⟩
    · have hx' : p x = false := by simpa using hx
      have h' : ∃ a ∈ l, p a = true := by
        rcases h with ⟨a, ha, hpa⟩
        rcases List.mem_cons.mp ha with rfl | ha'
        · exact absurd hpa (by simp [hx'])
        · exact ⟨a, ha', hpa⟩
      rcases ih h' with ⟨k, hk, hget, hbefore, heq⟩
      refine ⟨k + 1, Nat.succ_lt_succ hk, hget, ?_, ?_⟩
      · intro j hj hjk
        cases j with
        | zero => simpa using hx'
        | succ j' =>
          exact hbefore j' (Nat.lt_of_succ_lt_succ hj) (Nat.lt_of_succ_lt_succ hjk)
      · simp [updateFirst, hx', heq, List.set]

/-- The indexed optional map underlying the milestone and task
transforms: the result has the same length and holds the image of the
element at every index. -/
theorem optionMapIdx_get? {β : Type} (f : Nat → α → Option β) :
    ∀ (l : List α) (i : Nat) (ys : List β), optionMapIdx f i l = some ys →
      ys.length = l.length ∧
      ∀ (j : Nat) (a : α), l.get? j = some a →
        ∃ b, ys.get? j = some b ∧ f (i + j) a = some b := by
  intro l
  induction l with
  | nil =>
    intro i ys h
    simp only [optionMapIdx, Option.some_inj] at h
    subst h
    simp
  | cons x l ih =>
    intro i ys h
    simp only [optionMapIdx] at h
    cases hfx : f i x with
    | none => simp [hfx] at h
    | some b =>
      cases hrest : optionMapIdx f (i + 1) l with
      | none => simp [hfx, hrest] at h
      | some bs =>
        simp only [hfx, hrest, Option.some_inj] at h
        subst h
        rcases ih (i + 1) bs hrest with ⟨hlen, hidx⟩
        refine ⟨by simp [hlen], ?_⟩
        intro j a hj
        cases j with
        | zero =>
          simp only [List.get?_cons_zero, Option.some_inj] at hj
          subst hj
          exact ⟨b, by simp, by simpa using hfx⟩
        | succ j' =>
          simp only [List.get?_cons_succ] at hj ⊢
          rcases hidx j' a hj with ⟨b', hb', hf'⟩
          exact ⟨b', hb', by rw [show i + (j' + 1) = i + 1 + j' from by omega]; exact hf'⟩

end UpdateFirstLemmas

/-- The progress equation stated by the specification: progress =
round(100 × completed_tasks / total_tasks) over all tasks of all
milestones, and 0 when the project has no tasks. -/
def progressSpec (p : Project) : Prop :=
  if totalTasks p = 0 then p.progress = 0
  else (p.progress : ℤ) = round (100 * (completedTasks p : ℚ) / (totalTasks p : ℚ))

/-- Saving a project with a modified milestones path establishes the
specification progress equation. -/
theorem saveProject_progressSpec (p : Project) : progressSpec (saveProject true p) := by
  have hmt : totalTasks (saveProject true p) = totalTasks p := rfl
  have hmc : completedTasks (saveProject true p) = completedTasks p := rfl
  have hprog : (saveProject true p).progress = calculateProgress p := rfl
  unfold progressSpec
  rw [hmt, hmc, hprog]
  by_cases h : totalTasks p = 0
  · simp [h, calculateProgress]
  · have hpos : 0 < totalTasks p := Nat.pos_of_ne_zero h
    have hcp : calculateProgress p
        = (200 * completedTasks p + totalTasks p) / (2 * totalTasks p) := by
      simp [calculateProgress, h]
    simp only [h, if_false]
    rw [hcp, natRound_eq_round (completedTasks p) (totalTasks p) hpos]
    congr 1
    ring

/-- A session ended by the bulk PUT update no longer counts as active. -/
theorem endSessionUpdate_not_active (u now : Nat) (note : Option String) (s : SessionDoc) :
    ((endSessionUpdate now note s).userId == u &&
      (endSessionUpdate now note s).status == SStatus.active) = false := by
  simp [endSessionUpdate]

/-- Each session API operation preserves the bound of one active session
per user (active meaning status active, the notion the handlers query). -/
theorem activeCount_le_applyOp (u : Nat) (op : SessionOp) (st : AppState)
    (h : activeCount u st ≤ 1) : activeCount u (applyOp op st) ≤ 1 := by
  cases op with
  | post now uid pid mid tid =>
    simp only [applyOp, sessionsPOST]
    split
    case _ pid2 mid2 tid2 =>
      split
      · exact h
      · split
        · exact h
        case _ hnone =>
          by_cases huid : uid = u
          · subst huid
            have hempty : st.sessions.filter
                (fun s => s.userId == uid && s.status == SStatus.active) = [] := by
              apply List.filter_eq_nil_iff.mpr
              intro a ha
              simpa using List.find?_eq_none.mp hnone a ha
            simp [activeCount, List.filter_append, hempty]
          · simpa [activeCount, List.filter_append, huid] using h
    · exact h
  | putBulk now uid sid note =>
    simp only [applyOp, sessionsPUT]
    split
    · exact h
    · split
      · exact h
      · simp only [activeCount]
        calc ((updateFirst _ (endSessionUpdate now note) st.sessions).filter
                (fun s => s.userId == u && s.status == SStatus.active)).length
            ≤ (st.sessions.filter (fun s => s.userId == u && s.status == SStatus.active)).length :=
              length_filter_updateFirst_le _ _ _ _ (endSessionUpdate_not_active u now note)
          _ ≤ 1 := h
  | putId now uid sid body =>
    simp only [applyOp, sessionsIdPUT]
    split
    · exact h
    · exact h

/-- A whole sequence of session API operations preserves the bound of one
active session per user. -/
theorem activeCount_le_execList (u : Nat) (ops : List SessionOp) (st : AppState)
    (h : activeCount u st ≤ 1) : activeCount u (execList ops st) ≤ 1 := by
  induction ops generalizing st with
  | nil => simpa [execList] using h
  | cons op ops ih =>
    have hstep : execList (op :: ops) st = execList ops (applyOp op st) := rfl
    rw [hstep]
    exact ih (applyOp op st) (activeCount_le_applyOp u op st h)

/-- C1: for every project save in which the milestones list was modified,
the stored progress equals round(100 × completed_tasks / total_tasks)
counted over all tasks of all milestones, and equals 0 when the project
has no tasks; in particular every project in the post-state of the
task-status PUT and milestone-status PUT handlers — the handlers that
change a task or milestone status and then save — and of the session-end
[id] PUT handler (which in fact never persists anything) is either an
untouched pre-state project or satisfies this equation. -/
theorem progress_formula_on_milestone_saves :
    (∀ p : Project, progressSpec (saveProject true p)) ∧
    (∀ now uid pid mid tid statusStr note ps p2,
        p2 ∈ (taskStatusPUT now uid pid mid tid statusStr note ps).2 →
        p2 ∈ ps ∨ progressSpec p2) ∧
    (∀ uid pid mid statusStr ps p2,
        p2 ∈ (milestoneStatusPUT uid pid mid statusStr ps).2 →
        p2 ∈ ps ∨ progressSpec p2) ∧
    (∀ now uid sid body st p2,
        p2 ∈ (sessionsIdPUT now uid sid body st).2.projects →
        p2 ∈ st.projects ∨ progressSpec p2) := by
  refine ⟨saveProject_progressSpec, ?_, ?_, ?_⟩
  · intro now uid pid mid tid statusStr note ps p2 hmem
    simp only [taskStatusPUT] at hmem
    repeat' split at hmem
    all_goals
      first
      | exact Or.inl hmem
      | (rcases mem_updateFirst _ _ _ _ hmem with hm | ⟨a, _, _, rfl⟩
         · exact Or.inl hm
         · exact Or.inr (saveProject_progressSpec _))
  · intro uid pid mid statusStr ps p2 hmem
    simp only [milestoneStatusPUT] at hmem
    repeat' split at hmem
    all_goals
      first
      | exact Or.inl hmem
      | (rcases mem_updateFirst _ _ _ _ hmem with hm | ⟨a, _, _, rfl⟩
         · exact Or.inl hm
         · exact Or.inr (saveProject_progressSpec _))
  · intro now uid sid body st p2 hmem
    simp only [sessionsIdPUT] at hmem
    split at hmem
    · exact Or.inl hmem
    · exact Or.inl hmem

/-- A concrete one-milestone, two-task project used to witness the
progress equation. -/
def demoProjectC1 : Project :=
  { id := 1, userId := 1, name := "p", description := "", category := "other",
    status := PStatus.active, progress := 0, deadline := none,
    milestones := [⟨1, "m", TStatus.not_started,
      [⟨1, "t1", TStatus.not_started, "", none⟩,
       ⟨2, "t2", TStatus.not_started, "", none⟩]⟩],
    autoStart := false, notifications := true }

/-- Witness for C1: a concrete task-status update marking one of two
tasks completed; each project in the post-state is a pre-state project or
satisfies the progress equation, and the updated project stores 50. -/
theorem progress_formula_on_milestone_saves_witness :
    (∀ p2, p2 ∈ (taskStatusPUT 9 1 1 1 1 "completed" none [demoProjectC1]).2 →
      p2 ∈ [demoProjectC1] ∨ progressSpec p2) ∧
    (taskStatusPUT 9 1 1 1 1 "completed" none [demoProjectC1]).2.map Project.progress
      = [50] :=
  ⟨fun p2 => progress_formula_on_milestone_saves.2.1 9 1 1 1 1 "completed" none _ p2,
   by decide⟩

/-- C2: starting from a state in which a user has no active session,
after any prefix of a sequence of session API operations (create via POST
/api/sessions, end via PUT /api/sessions, end via PUT /api/sessions/[id])
the user has at most one active session. -/
theorem at_most_one_active_session (u : Nat) (st : AppState)
    (h : activeCount u st = 0) (ops pre rest : List SessionOp)
    (_hsplit : ops = pre ++ rest) :
    activeCount u (execList pre st) ≤ 1 :=
  activeCount_le_execList u pre st (by omega)

/-- Witness for C2: from the empty state, a create followed by a second
create attempt and an end keeps the user at no more than one active
session. -/
theorem at_most_one_active_session_witness :
    activeCount 1 ⟨[], [], 0⟩ = 0 ∧
    activeCount 1 (execList
      [SessionOp.post 5 1 (some 1) (some 1) (some 1),
       SessionOp.post 6 1 (some 1) (some 1) (some 1),
       SessionOp.putBulk 7 1 (some 0) (some "done")] ⟨[], [], 0⟩) ≤ 1 :=
  ⟨rfl,
   at_most_one_active_session 1 ⟨[], [], 0⟩ rfl
     [SessionOp.post 5 1 (some 1) (some 1) (some 1),
      SessionOp.post 6 1 (some 1) (some 1) (some 1),
      SessionOp.putBulk 7 1 (some 0) (some "done")]
     [SessionOp.post 5 1 (some 1) (some 1) (some 1),
      SessionOp.post 6 1 (some 1) (some 1) (some 1),
      SessionOp.putBulk 7 1 (some 0) (some "done")]
     [] (by simp)⟩

/-- C3: for an authenticated session-create request carrying the three
ids for a project owned by the user, the handler refuses with 400 and an
unchanged state when the user already has an active session, and
otherwise creates exactly one session with status active, the given ids,
an empty note and startTime equal to the request time. -/
theorem sessionsPOST_create_or_reject (now uid pid mid tid : Nat) (st : AppState)
    (proj : Project)
    (hproj : st.projects.find? (fun p => p.id == pid && p.userId == uid) = some proj) :
    ((∃ s, st.sessions.find?
        (fun s => s.userId == uid && s.status == SStatus.active) = some s) →
      sessionsPOST now uid (some pid) (some mid) (some tid) st
        = (ApiResult.err 400 "You already have an active session", st)) ∧
    (st.sessions.find?
        (fun s => s.userId == uid && s.status == SStatus.active) = none →
      sessionsPOST now uid (some pid) (some mid) (some tid) st
        = (ApiResult.ok 200
            ⟨st.nextId, uid, pid, mid, tid, now, none, SStatus.active, ""⟩,
           ⟨st.projects,
            st.sessions ++
              [⟨st.nextId, uid, pid, mid, tid, now, none, SStatus.active, ""⟩],
            st.nextId + 1⟩)) := by
  constructor
  · rintro ⟨s, hs⟩
    simp [sessionsPOST, hproj, hs]
  · intro hnone
    simp [sessionsPOST, hproj, hnone]

/-- Witness for C3: one project, no sessions; the create succeeds and
appends exactly the expected active session. -/
theorem sessionsPOST_create_or_reject_witness :
    (⟨[demoProjectC1], [], 0⟩ : AppState).projects.find?
        (fun p => p.id == 1 && p.userId == 1) = some demoProjectC1 ∧
    sessionsPOST 5 1 (some 1) (some 1) (some 2) ⟨[demoProjectC1], [], 0⟩
      = (ApiResult.ok 200 ⟨0, 1, 1, 1, 2, 5, none, SStatus.active, ""⟩,
         ⟨[demoProjectC1], [⟨0, 1, 1, 1, 2, 5, none, SStatus.active, ""⟩], 1⟩) :=
  ⟨by decide,
   (sessionsPOST_create_or_reject 5 1 1 1 2 ⟨[demoProjectC1], [], 0⟩ demoProjectC1
      (by decide)).2 rfl⟩

/-- C4: after a successful task-status update, the status of the
containing milestone in the stored project equals the recomputation from
its tasks: completed when all are completed, else in_progress when any is
in_progress, else not_started when all are not_started, else the prior
milestone status. -/
theorem task_status_recomputes_milestone
    (now uid pid mid tid : Nat) (statusStr : String) (note : Option String)
    (ps : List Project) (stNew : TStatus) (proj : Project) (ms : Milestone) (t : Task)
    (hs : TStatus.parse? statusStr = some stNew)
    (hproj : ps.find? (fun p => p.id == pid && p.userId == uid) = some proj)
    (hm : proj.milestones.find? (fun m => m.id == mid) = some ms)
    (ht : ms.tasks.find? (fun x => x.id == tid) = some t) :
    ∃ proj2 ms2,
      (taskStatusPUT now uid pid mid tid statusStr note ps).2.find?
          (fun p => p.id == pid && p.userId == uid) = some proj2 ∧
      proj2.milestones.find? (fun m => m.id == mid) = some ms2 ∧
      ms2.status =
        (if ms2.tasks.all (fun x => x.status == TStatus.completed) then TStatus.completed
         else if ms2.tasks.any (fun x => x.status == TStatus.in_progress) then
           TStatus.in_progress
         else if ms2.tasks.all (fun x => x.status == TStatus.not_started) then
           TStatus.not_started
         else ms.status) := by
  simp only [taskStatusPUT, hs, hproj, hm, ht]
  exact ⟨_, _,
    find?_updateFirst _ _ _ proj hproj (by simpa [saveProject] using List.find?_some hproj),
    find?_updateFirst _ _ _ ms hm (by simpa using List.find?_some hm), rfl⟩

/-- Witness for C4: completing the first of two tasks leaves the second
not started, a mixed state, so the recomputation keeps the prior
milestone status. -/
theorem task_status_recomputes_milestone_witness :
    ∃ proj2 ms2,
      (taskStatusPUT 9 1 1 1 1 "completed" none [demoProjectC1]).2.find?
          (fun p => p.id == 1 && p.userId == 1) = some proj2 ∧
      proj2.milestones.find? (fun m => m.id == 1) = some ms2 ∧
      ms2.status =
        (if ms2.tasks.all (fun x => x.status == TStatus.completed) then TStatus.completed
         else if ms2.tasks.any (fun x => x.status == TStatus.in_progress) then
           TStatus.in_progress
         else if ms2.tasks.all (fun x => x.status == TStatus.not_started) then
           TStatus.not_started
         else TStatus.not_started) :=
  task_status_recomputes_milestone 9 1 1 1 1 "completed" none [demoProjectC1]
    TStatus.completed demoProjectC1
    ⟨1, "m", TStatus.not_started,
      [⟨1, "t1", TStatus.not_started, "", none⟩, ⟨2, "t2", TStatus.not_started, "", none⟩]⟩
    ⟨1, "t1", TStatus.not_started, "", none⟩
    (by decide) (by decide) (by decide) (by decide)

/-- C6: ending a session through PUT /api/sessions updates exactly the
matching session of the requesting user to status completed with endTime
now and the note overwritten by the request note (empty when absent),
leaving its identity, references and startTime unchanged, and returns 404
with an unchanged state when no owned session matches. -/
theorem sessionsPUT_end_session (now uid sid : Nat) (note : Option String) (st : AppState) :
    (st.sessions.find? (fun s => s.id == sid && s.userId == uid) = none →
      sessionsPUT now uid (some sid) note st = (ApiResult.err 404 "Session not found", st)) ∧
    (∀ s, st.sessions.find? (fun s => s.id == sid && s.userId == uid) = some s →
      sessionsPUT now uid (some sid) note st
        = (ApiResult.ok 200 (endSessionUpdate now note s),
           ⟨st.projects,
            updateFirst (fun x => x.id == sid && x.userId == uid)
              (endSessionUpdate now note) st.sessions,
            st.nextId⟩) ∧
      (endSessionUpdate now note s).status = SStatus.completed ∧
      (endSessionUpdate now note s).endTime = some now ∧
      (endSessionUpdate now note s).note = note.getD "" ∧
      (endSessionUpdate now note s).userId = s.userId ∧
      (endSessionUpdate now note s).projectId = s.projectId ∧
      (endSessionUpdate now note s).milestoneId = s.milestoneId ∧
      (endSessionUpdate now note s).taskId = s.taskId ∧
      (endSessionUpdate now note s).startTime = s.startTime) := by
  constructor
  · intro hnone
    simp [sessionsPUT, hnone]
  · intro s hs
    refine ⟨?_, rfl, rfl, rfl, rfl, rfl, rfl, rfl, rfl⟩
    simp [sessionsPUT, hs]

/-- Witness for C6: ending the one session of the demo state overwrites
its empty note with the request note and completes it. -/
theorem sessionsPUT_end_session_witness :
    sessionsPUT 7 1 (some 0) (some "done")
        ⟨[], [⟨0, 1, 1, 1, 2, 5, none, SStatus.active, ""⟩], 1⟩
      = (ApiResult.ok 200 ⟨0, 1, 1, 1, 2, 5, some 7, SStatus.completed, "done"⟩,
         ⟨[], [⟨0, 1, 1, 1, 2, 5, some 7, SStatus.completed, "done"⟩], 1⟩) :=
  ((sessionsPUT_end_session 7 1 0 (some "done")
      ⟨[], [⟨0, 1, 1, 1, 2, 5, none, SStatus.active, ""⟩], 1⟩).2
    ⟨0, 1, 1, 1, 2, 5, none, SStatus.active, ""⟩ (by decide)).1

/-- The task/milestone status parse fails exactly on strings outside the
three-element status domain. -/
theorem taskStatusParse_eq_none_iff (s : String) :
    TStatus.parse? s = none
      ↔ s ∉ (["not_started", "in_progress", "completed"] : List String) := by
  unfold TStatus.parse?
  split_ifs with h1 h2 h3 <;> simp_all

/-- The project status parse fails exactly on strings outside the
three-element project status domain. -/
theorem projStatusParse_eq_none_iff (s : String) :
    PStatus.parse? s = none
      ↔ s ∉ (["active", "completed", "archived"] : List String) := by
  unfold PStatus.parse?
  split_ifs with h1 h2 h3 <;> simp_all

/-- C7: the task-status and milestone-status handlers answer 400 "Invalid
status value" with the state unchanged exactly when the requested status
is outside {not_started, in_progress, completed}, and the project-status
handler does the same exactly outside {active, completed, archived}
(stored statuses are domain-typed by construction in this model). -/
theorem status_validation_iff :
    (∀ (now uid pid mid tid : Nat) (statusStr : String) (note : Option String)
        (ps : List Project),
      taskStatusPUT now uid pid mid tid statusStr note ps
          = (ApiResult.err 400 "Invalid status value", ps)
        ↔ statusStr ∉ (["not_started", "in_progress", "completed"] : List String)) ∧
    (∀ (uid pid mid : Nat) (statusStr : String) (ps : List Project),
      milestoneStatusPUT uid pid mid statusStr ps
          = (ApiResult.err 400 "Invalid status value", ps)
        ↔ statusStr ∉ (["not_started", "in_progress", "completed"] : List String)) ∧
    (∀ (uid pid : Nat) (statusStr : String) (ps : List Project),
      projectStatusPUT uid pid statusStr ps
          = (ApiResult.err 400 "Invalid status value", ps)
        ↔ statusStr ∉ (["active", "completed", "archived"] : List String)) := by
  refine ⟨?_, ?_, ?_⟩
  · intro now uid pid mid tid statusStr note ps
    rw [← taskStatusParse_eq_none_iff]
    constructor
    · intro heq
      cases hp : TStatus.parse? statusStr with
      | none => rfl
      | some stNew =>
        simp only [taskStatusPUT, hp] at heq
        repeat' split at heq
        all_goals simp_all
    · intro hp
      simp [taskStatusPUT, hp]
  · intro uid pid mid statusStr ps
    rw [← taskStatusParse_eq_none_iff]
    constructor
    · intro heq
      cases hp : TStatus.parse? statusStr with
      | none => rfl
      | some stNew =>
        simp only [milestoneStatusPUT, hp] at heq
        repeat' split at heq
        all_goals simp_all
    · intro hp
      simp [milestoneStatusPUT, hp]
  · intro uid pid statusStr ps
    rw [← projStatusParse_eq_none_iff]
    constructor
    · intro heq
      cases hp : PStatus.parse? statusStr with
      | none => rfl
      | some stNew =>
        simp only [projectStatusPUT, hp] at heq
        split at heq
        all_goals simp_all
    · intro hp
      simp [projectStatusPUT, hp]

/-- C8: setting a milestone to completed completes every one of its
tasks; setting it to in_progress while it has a not_started task promotes
exactly the first such task; in both cases milestones with another id and
the project's name, description, category, status and deadline are
unchanged. -/
theorem milestone_status_cascade (uid pid mid : Nat) (ps : List Project)
    (proj : Project) (ms : Milestone)
    (hproj : ps.find? (fun p => p.id == pid && p.userId == uid) = some proj)
    (hm : proj.milestones.find? (fun m => m.id == mid) = some ms) :
    (∃ proj2 ms2,
      (milestoneStatusPUT uid pid mid "completed" ps).2.find?
          (fun p => p.id == pid && p.userId == uid) = some proj2 ∧
      proj2.milestones.find? (fun m => m.id == mid) = some ms2 ∧
      ms2.status = TStatus.completed ∧
      (∀ x ∈ ms2.tasks, x.status = TStatus.completed) ∧
      (∀ m2 ∈ proj.milestones, (m2.id == mid) = false → m2 ∈ proj2.milestones) ∧
      proj2.name = proj.name ∧ proj2.description = proj.description ∧
      proj2.category = proj.category ∧ proj2.status = proj.status ∧
      proj2.deadline = proj.deadline) ∧
    ((∃ x ∈ ms.tasks, x.status = TStatus.not_started) →
      ∃ (proj2 : Project) (ms2 : Milestone) (k : Nat) (hk : k < ms.tasks.length),
        (milestoneStatusPUT uid pid mid "in_progress" ps).2.find?
            (fun p => p.id == pid && p.userId == uid) = some proj2 ∧
        proj2.milestones.find? (fun m => m.id == mid) = some ms2 ∧
        ms2.status = TStatus.in_progress ∧
        (ms.tasks.get ⟨k, hk⟩).status = TStatus.not_started ∧
        (∀ j (hj : j < ms.tasks.length), j < k →
          (ms.tasks.get ⟨j, hj⟩).status ≠ TStatus.not_started) ∧
        ms2.tasks = ms.tasks.set k
          { ms.tasks.get ⟨k, hk⟩ with status := TStatus.in_progress } ∧
        (∀ m2 ∈ proj.milestones, (m2.id == mid) = false → m2 ∈ proj2.milestones) ∧
        proj2.name = proj.name ∧ proj2.description = proj.description ∧
        proj2.category = proj.category ∧ proj2.status = proj.status ∧
        proj2.deadline = proj.deadline) := by
  constructor
  · have hc : TStatus.parse? "completed" = some TStatus.completed := by decide
    simp only [milestoneStatusPUT, hc, hproj, hm]
    refine ⟨_, _,
      find?_updateFirst _ _ _ proj hproj (by simpa [saveProject] using List.find?_some hproj),
      find?_updateFirst _ _ _ ms hm (by simpa using List.find?_some hm),
      rfl, ?_, ?_, rfl, rfl, rfl, rfl, rfl⟩
    · intro x hx
      simp only [milestoneTasksUpdate] at hx
      simp only [beq_self_eq_true, if_true, List.mem_map] at hx
      obtain ⟨a, _, rfl⟩ := hx
      rfl
    · intro m2 hm2 hne
      exact mem_updateFirst_of_not _ _ _ _ hm2 hne
  · intro hex
    have hipr : TStatus.parse? "in_progress" = some TStatus.in_progress := by decide
    have hany : ms.tasks.any (fun t => t.status == TStatus.not_started) = true := by
      rcases hex with ⟨x, hx, hxs⟩
      exact List.any_eq_true.mpr ⟨x, hx, by simp [hxs]⟩
    have hset := updateFirst_exists_set (fun t => t.status == TStatus.not_started)
      (fun t => { t with status := TStatus.in_progress }) ms.tasks
      (by rcases hex with ⟨x, hx, hxs⟩; exact ⟨x, hx, by simp [hxs]⟩)
    obtain ⟨k, hk, hget, hbefore, heq⟩ := hset
    have htu : milestoneTasksUpdate TStatus.in_progress ms.tasks
        = ms.tasks.set k { ms.tasks.get ⟨k, hk⟩ with status := TStatus.in_progress } := by
      rw [milestoneTasksUpdate]
      simp only [hany]
      norm_num at heq ⊢
      exact heq
    simp only [milestoneStatusPUT, hipr, hproj, hm]
    refine ⟨_, _, k, hk,
      find?_updateFirst _ _ _ proj hproj (by simpa [saveProject] using List.find?_some hproj),
      find?_updateFirst _ _ _ ms hm (by simpa using List.find?_some hm),
      rfl, by simpa using hget, ?_, by simpa using htu, ?_, rfl, rfl, rfl, rfl, rfl⟩
    · intro j hj hjk
      have := hbefore j hj hjk
      simpa using this
    · intro m2 hm2 hne
      exact mem_updateFirst_of_not _ _ _ _ hm2 hne

/-- A two-milestone project used to witness the milestone-status
cascade and its frame conditions. -/
def demoProjectC8 : Project :=
  { id := 2, userId := 1, name := "q", description := "d", category := "design",
    status := PStatus.active, progress := 0, deadline := some 99,
    milestones :=
      [⟨1, "m1", TStatus.not_started,
         [⟨1, "t1", TStatus.completed, "", none⟩,
          ⟨2, "t2", TStatus.not_started, "", none⟩]⟩,
       ⟨2, "m2", TStatus.not_started, [⟨3, "t3", TStatus.not_started, "", none⟩]⟩],
    autoStart := false, notifications := true }

/-- Witness for C8: completing milestone 1 of the demo project completes
its two tasks and leaves milestone 2 and the project header fields
untouched. -/
theorem milestone_status_cascade_witness :
    ∃ proj2 ms2,
      (milestoneStatusPUT 1 2 1 "completed" [demoProjectC8]).2.find?
          (fun p => p.id == 2 && p.userId == 1) = some proj2 ∧
      proj2.milestones.find? (fun m => m.id == 1) = some ms2 ∧
      ms2.status = TStatus.completed ∧
      (∀ x ∈ ms2.tasks, x.status = TStatus.completed) ∧
      (∀ m2 ∈ demoProjectC8.milestones, (m2.id == 1) = false → m2 ∈ proj2.milestones) ∧
      proj2.name = demoProjectC8.name ∧ proj2.description = demoProjectC8.description ∧
      proj2.category = demoProjectC8.category ∧ proj2.status = demoProjectC8.status ∧
      proj2.deadline = demoProjectC8.deadline :=
  (milestone_status_cascade 1 2 1 [demoProjectC8] demoProjectC8
    ⟨1, "m1", TStatus.not_started,
      [⟨1, "t1", TStatus.completed, "", none⟩,
       ⟨2, "t2", TStatus.not_started, "", none⟩]⟩
    (by decide) (by decide)).1

/-- The one-task project referenced by the session of the C5 state. -/
def demoProjectC5 : Project :=
  { id := 1, userId := 1, name := "p", description := "", category := "other",
    status := PStatus.active, progress := 0, deadline := none,
    milestones := [⟨1, "m", TStatus.in_progress,
      [⟨1, "t1", TStatus.in_progress, "", none⟩]⟩],
    autoStart := false, notifications := true }

/-- A state with one project and one active session against its task. -/
def demoStateC5 : AppState :=
  ⟨[demoProjectC5],
   [⟨5, 1, 1, 1, 1, 100, none, SStatus.active, ""⟩], 6⟩

/-- Counterexample to C5: ending the session on task 1 through PUT
/api/sessions with note "worked" completes the session and stores the
note on it, but the projects collection — and hence the task's
lastSession, still none — is untouched, not the claimed
(end time, session note) summary. -/
theorem lastSession_stale_after_bulk_end :
    (sessionsPUT 200 1 (some 5) (some "worked") demoStateC5).2.sessions.map
        SessionDoc.status = [SStatus.completed] ∧
    (sessionsPUT 200 1 (some 5) (some "worked") demoStateC5).2.sessions.map
        SessionDoc.note = ["worked"] ∧
    (sessionsPUT 200 1 (some 5) (some "worked") demoStateC5).2.sessions.map
        SessionDoc.endTime = [some 200] ∧
    (sessionsPUT 200 1 (some 5) (some "worked") demoStateC5).2.projects
        = demoStateC5.projects ∧
    (sessionsPUT 200 1 (some 5) (some "worked") demoStateC5).2.projects.map
        (fun p => p.milestones.map (fun m => m.tasks.map Task.lastSession))
        = [[[none]]] ∧
    ([[[(none : Option LastSession)]]]
        ≠ [[[some (⟨200, "worked"⟩ : LastSession)]]]) := by
  decide

/-- C5 as amended: no session-ending request updates a task's
lastSession. Ending through PUT /api/sessions changes no project, and
PUT /api/sessions/[id] leaves the whole state unchanged for every
request (it fails before saving anything: 404 without a match, otherwise
500 at the activities access). The summary is written only by the
task-status PUT handler: on a successful update the stored task carries
the new status, and its lastSession is the request note with the
handler's current time exactly when the new status is in_progress and
the note is truthy, the prior summary otherwise. -/
theorem lastSession_denormalization
    (now uid pid mid tid : Nat) (statusStr : String) (note : Option String)
    (ps : List Project) (stNew : TStatus) (proj : Project) (ms : Milestone) (t : Task)
    (hs : TStatus.parse? statusStr = some stNew)
    (hproj : ps.find? (fun p => p.id == pid && p.userId == uid) = some proj)
    (hm : proj.milestones.find? (fun m => m.id == mid) = some ms)
    (ht : ms.tasks.find? (fun x => x.id == tid) = some t) :
    (∀ (now2 uid2 : Nat) (sid2 : Option Nat) (note2 : Option String) (st2 : AppState),
      ((sessionsPUT now2 uid2 sid2 note2 st2).2).projects = st2.projects) ∧
    (∀ (now2 uid2 sid2 : Nat) (body : IdPutBody) (st2 : AppState),
      (sessionsIdPUT now2 uid2 sid2 body st2).2 = st2) ∧
    (∃ proj2 ms2 t2,
      (taskStatusPUT now uid pid mid tid statusStr note ps).2.find?
          (fun p => p.id == pid && p.userId == uid) = some proj2 ∧
      proj2.milestones.find? (fun m => m.id == mid) = some ms2 ∧
      ms2.tasks.find? (fun x => x.id == tid) = some t2 ∧
      t2.status = stNew ∧
      t2.lastSession =
        (if stNew == TStatus.in_progress && strTruthy note
         then some ⟨now, note.getD ""⟩ else t.lastSession)) := by
  refine ⟨?_, ?_, ?_⟩
  · intro now2 uid2 sid2 note2 st2
    unfold sessionsPUT
    repeat' split
    all_goals rfl
  · intro now2 uid2 sid2 body st2
    unfold sessionsIdPUT
    split
    · rfl
    · rfl
  · have hid : (applyTaskUpdate now stNew note t).id = t.id := by
      unfold applyTaskUpdate
      split
      · rfl
      · rfl
    have hstat : (applyTaskUpdate now stNew note t).status = stNew := by
      unfold applyTaskUpdate
      split
      · rfl
      · rfl
    have hlast : (applyTaskUpdate now stNew note t).lastSession =
        (if stNew == TStatus.in_progress && strTruthy note
         then some ⟨now, note.getD ""⟩ else t.lastSession) := by
      unfold applyTaskUpdate
      split
      · rfl
      · rfl
    simp only [taskStatusPUT, hs, hproj, hm, ht]
    exact ⟨_, _, _,
      find?_updateFirst _ _ _ proj hproj (by simpa [saveProject] using List.find?_some hproj),
      find?_updateFirst _ _ _ ms hm (by simpa using List.find?_some hm),
      find?_updateFirst _ _ _ t ht (by simpa [hid] using List.find?_some ht),
      hstat, hlast⟩

/-- Witness for the amended C5: a concrete in_progress update with a note
stores that note with the handler time on the task, while both
session-end paths leave projects untouched. -/
theorem lastSession_denormalization_witness :
    (∀ (now2 uid2 : Nat) (sid2 : Option Nat) (note2 : Option String) (st2 : AppState),
      ((sessionsPUT now2 uid2 sid2 note2 st2).2).projects = st2.projects) ∧
    (∀ (now2 uid2 sid2 : Nat) (body : IdPutBody) (st2 : AppState),
      (sessionsIdPUT now2 uid2 sid2 body st2).2 = st2) ∧
    (∃ proj2 ms2 t2,
      (taskStatusPUT 9 1 1 1 1 "in_progress" (some "progress note")
          [demoProjectC1]).2.find? (fun p => p.id == 1 && p.userId == 1) = some proj2 ∧
      proj2.milestones.find? (fun m => m.id == 1) = some ms2 ∧
      ms2.tasks.find? (fun x => x.id == 1) = some t2 ∧
      t2.status = TStatus.in_progress ∧
      t2.lastSession =
        (if TStatus.in_progress == TStatus.in_progress && strTruthy (some "progress note")
         then some ⟨9, (some "progress note").getD ""⟩
         else (none : Option LastSession))) :=
  lastSession_denormalization 9 1 1 1 1 "in_progress" (some "progress note")
    [demoProjectC1] TStatus.in_progress demoProjectC1
    ⟨1, "m", TStatus.not_started,
      [⟨1, "t1", TStatus.not_started, "", none⟩, ⟨2, "t2", TStatus.not_started, "", none⟩]⟩
    ⟨1, "t1", TStatus.not_started, "", none⟩
    (by decide) (by decide) (by decide) (by decide)

/-- The task status the claim prescribes for a creation input: the
provided status, or not_started when the status is absent or falsy,
including when the task is given as a bare string. -/
def specTaskStatus : TaskInput → TStatus
  | TaskInput.str _ => TStatus.not_started
  | TaskInput.obj _ s _ =>
    if strTruthy s then (TStatus.parse? (s.getD "")).getD TStatus.not_started
    else TStatus.not_started

/-- A successfully transformed creation task keeps the provided status
(or defaults to not_started). -/
theorem parseTaskInput_status (i : Nat) (ti : TaskInput) (t : Task)
    (h : parseTaskInput i ti = some t) : t.status = specTaskStatus ti := by
  cases ti with
  | str n =>
    simp only [parseTaskInput] at h
    split at h
    · exact absurd h (by simp)
    · simp only [Option.some_inj] at h
      subst h
      rfl
  | obj n s notes =>
    simp only [parseTaskInput] at h
    split at h
    · exact absurd h (by simp)
    · split at h
      · exact absurd h (by simp)
      · rename_i stNew hp
        simp only [Option.some_inj] at h
        subst h
        simp only [specTaskStatus]
        split at hp
        · rename_i hts
          rw [if_pos hts, hp]
          rfl
        · rename_i hts
          simp only [Option.some_inj] at hp
          rw [if_neg hts, ← hp]

/-- A successfully transformed creation milestone has status not_started
and tasks transformed index by index. -/
theorem parseMilestoneInput_shape (j : Nat) (mi : MilestoneInput) (m : Milestone)
    (h : parseMilestoneInput j mi = some m) :
    m.status = TStatus.not_started ∧
    m.tasks.length = mi.tasks.length ∧
    ∀ (i : Nat) (ti : TaskInput), mi.tasks.get? i = some ti →
      ∃ t, m.tasks.get? i = some t ∧ t.status = specTaskStatus ti := by
  unfold parseMilestoneInput at h
  split_ifs at h
  cases hts : optionMapIdx parseTaskInput 0 mi.tasks with
  | none => rw [hts] at h; simp at h
  | some ts =>
    rw [hts] at h
    simp only [Option.some_inj] at h
    subst h
    rcases optionMapIdx_get? parseTaskInput mi.tasks 0 ts hts with ⟨hlen, hidx⟩
    refine ⟨rfl, hlen, ?_⟩
    intro i ti hti
    rcases hidx i ti hti with ⟨t, hget, hparse⟩
    exact ⟨t, hget, parseTaskInput_status _ ti t (by simpa using hparse)⟩

/-- The creation request body and created document used as concrete C9
instance: one milestone with one task already marked completed. -/
def demoBodyC9 : ProjectPostBody :=
  ⟨"P", none, "design", none, none,
   [⟨"M", [TaskInput.obj "t" (some "completed") none]⟩], none, none⟩

/-- The project stored for demoBodyC9: milestone not_started, task
completed, progress 100. -/
def demoCreatedC9 : Project :=
  { id := 1, userId := 1, name := "P", description := "", category := "design",
    status := PStatus.active, progress := 100, deadline := none,
    milestones := [⟨0, "M", TStatus.not_started,
      [⟨0, "t", TStatus.completed, "", none⟩]⟩],
    autoStart := false, notifications := true }

/-- Inversion of a successful project creation: the milestones and status
were transformed successfully and the stored document is the transformed
body saved with a modified milestones path. -/
theorem projectsPOST_ok_inv (freshId uid : Nat) (body : ProjectPostBody)
    (ps : List Project) (p : Project) (ps2 : List Project)
    (h : projectsPOST freshId uid body ps = (ApiResult.ok 200 p, ps2)) :
    ∃ ms pst, optionMapIdx parseMilestoneInput 0 body.milestones = some ms ∧
      (if strTruthy body.statusStr = true then PStatus.parse? (body.statusStr.getD "")
       else some PStatus.active) = some pst ∧
      p = saveProject true
        { id := freshId, userId := uid, name := jsTrim body.name,
          description := jsTrim (body.description.getD ""),
          category := body.category, status := pst, progress := 0,
          deadline := body.deadline, milestones := ms,
          autoStart := body.settingsAutoStart.getD false,
          notifications := body.settingsNotifications.getD false || true } ∧
      ps2 = ps ++ [p] := by
  unfold projectsPOST at h
  split at h
  · exact absurd h (by simp)
  · cases hms : optionMapIdx parseMilestoneInput 0 body.milestones with
    | none => rw [hms] at h; exact absurd h (by simp)
    | some ms =>
      rw [hms] at h
      cases hpst : (if strTruthy body.statusStr = true
          then PStatus.parse? (body.statusStr.getD "")
          else some PStatus.active) with
      | none => rw [hpst] at h; exact absurd h (by simp)
      | some pst =>
        rw [hpst] at h
        cases hcond : (decide (jsTrim body.name = "") || !categoryOK body.category) with
        | true =>
          rw [hcond] at h
          exact absurd h (by simp)
        | false =>
          rw [hcond] at h
          simp only [Bool.false_eq_true, if_false, Prod.mk.injEq,
            ApiResult.ok.injEq] at h
          obtain ⟨⟨-, hp⟩, hps2⟩ := h
          subst hp
          exact ⟨ms, pst, rfl, rfl, rfl, hps2.symm⟩

/-- C9: a successfully created project appends exactly one document whose
milestones all have status not_started regardless of the input, whose
tasks keep their provided status (not_started when absent or given as a
bare string), and whose progress satisfies the round(100 ×
completed/total) equation; in particular a creation whose tasks are
already completed yields nonzero progress under all-not_started
milestones. -/
theorem projectsPOST_shape :
    (∀ (freshId uid : Nat) (body : ProjectPostBody) (ps : List Project)
        (p : Project) (ps2 : List Project),
      projectsPOST freshId uid body ps = (ApiResult.ok 200 p, ps2) →
      ps2 = ps ++ [p] ∧
      (∀ m ∈ p.milestones, m.status = TStatus.not_started) ∧
      progressSpec p ∧
      p.milestones.length = body.milestones.length ∧
      (∀ (j : Nat) (mi : MilestoneInput), body.milestones.get? j = some mi →
        ∃ m, p.milestones.get? j = some m ∧ m.status = TStatus.not_started ∧
          m.tasks.length = mi.tasks.length ∧
          ∀ (i : Nat) (ti : TaskInput), mi.tasks.get? i = some ti →
            ∃ t, m.tasks.get? i = some t ∧ t.status = specTaskStatus ti)) ∧
    (projectsPOST 1 1 demoBodyC9 [] = (ApiResult.ok 200 demoCreatedC9, [demoCreatedC9]) ∧
      demoCreatedC9.progress ≠ 0 ∧
      ∀ m ∈ demoCreatedC9.milestones, m.status = TStatus.not_started) := by
  constructor
  · intro freshId uid body ps p ps2 h
    rcases projectsPOST_ok_inv freshId uid body ps p ps2 h with ⟨ms, pst, hms, hpst, hp, hps2⟩
    rcases optionMapIdx_get? parseMilestoneInput body.milestones 0 ms hms with ⟨hlen, hidx⟩
    have hpm : p.milestones = ms := by rw [hp]; rfl
    refine ⟨hps2, ?_, ?_, by rw [hpm, hlen], ?_⟩
    · intro m hmem
      rw [hpm] at hmem
      rcases List.mem_iff_get.mp hmem with ⟨n, rfl⟩
      have hj : (n : Nat) < body.milestones.length := by
        have := n.2
        omega
      obtain ⟨mi, hmi⟩ : ∃ mi, body.milestones.get? (n : Nat) = some mi :=
        ⟨body.milestones.get ⟨n, hj⟩, List.get?_eq_get hj⟩
      rcases hidx n mi hmi with ⟨m2, hm2, hparse⟩
      rw [List.get?_eq_get n.2] at hm2
      have hm2e : ms.get n = m2 := Option.some_inj.mp hm2
      rw [hm2e]
      exact (parseMilestoneInput_shape _ mi _ hparse).1
    · rw [hp]
      exact saveProject_progressSpec _
    · intro j mi hmi
      rcases hidx j mi hmi with ⟨m, hgm, hparse⟩
      rcases parseMilestoneInput_shape _ mi m hparse with ⟨hst, hlen2, htasks⟩
      exact ⟨m, by rw [hpm]; exact hgm, hst, hlen2, htasks⟩
  · exact ⟨by decide, by decide, by decide⟩

/-- Witness for C9: the concrete creation succeeds and its conclusions
hold at the stored document. -/
theorem projectsPOST_shape_witness :
    [demoCreatedC9] = [] ++ [demoCreatedC9] ∧
    (∀ m ∈ demoCreatedC9.milestones, m.status = TStatus.not_started) ∧
    progressSpec demoCreatedC9 :=
  ⟨(projectsPOST_shape.1 1 1 demoBodyC9 [] demoCreatedC9 [demoCreatedC9] (by decide)).1,
   (projectsPOST_shape.1 1 1 demoBodyC9 [] demoCreatedC9 [demoCreatedC9] (by decide)).2.1,
   (projectsPOST_shape.1 1 1 demoBodyC9 [] demoCreatedC9 [demoCreatedC9] (by decide)).2.2.1⟩

/-- Counterexample to C10: the email a@b.info is well-formed for the
registration route regex and the password is long enough, no user exists,
yet registration answers 500 and creates no user, because the stricter
User model validator rejects the four-letter label after the final
dot — not the claimed 201 with a created user. -/
theorem register_rejected_despite_valid_email :
    registerPOST (fun s => s) 1 "Alice" "a@b.info" "password1" []
        = (ApiResult.err 500 "Failed to create user", []) ∧
    emailRegexOK "a@b.info" = true ∧
    8 ≤ "password1".length ∧
    ([] : List User).find? (fun u => u.email == normEmail "a@b.info") = none ∧
    userModelEmailOK (normEmail "a@b.info") = false := by
  decide

/-- C10 as amended: for a registration whose email passes both the route
format regex and the User model validator, whose trimmed name is
nonempty and whose password has at least 8 characters: an existing user
with that (normalized) email yields 409 with no change; otherwise, when
some stored user already has authProvider email and no authId, the
insert collides on the non-sparse unique (authProvider, authId) index
and the handler answers 500 with no user created; and only otherwise is
exactly one user with authProvider email appended, the 201 response
carrying only the id, email and display name (the RegisteredUser payload
has no password field). -/
theorem register_creates_or_conflicts (hash : String → String) (freshId : Nat)
    (name email password : String) (users : List User)
    (hname : jsTrim name ≠ "")
    (hfmt : emailRegexOK email = true)
    (hlen : 8 ≤ password.length)
    (hmodel : userModelEmailOK (normEmail email) = true) :
    ((∃ u ∈ users, u.email = normEmail email) →
      registerPOST hash freshId name email password users
        = (ApiResult.err 409 "Email already registered", users)) ∧
    (users.find? (fun u => u.email == normEmail email) = none →
      ((∃ u ∈ users, u.authProvider = "email" ∧ u.authId = none) →
        registerPOST hash freshId name email password users
          = (ApiResult.err 500 "Failed to create user", users)) ∧
      ((∀ u ∈ users, ¬(u.authProvider = "email" ∧ u.authId = none)) →
        registerPOST hash freshId name email password users
          = (ApiResult.ok 201 ⟨freshId, normEmail email, jsTrim name⟩,
             users ++ [⟨freshId, normEmail email, jsTrim name, none, "email", none,
               hash password, "system", true, true, true, true, "local"⟩]))) := by
  have hname0 : name ≠ "" := by
    intro he
    apply hname
    rw [he]
    rfl
  have hemail0 : email ≠ "" := by
    intro he
    rw [he] at hfmt
    exact absurd hfmt (by decide)
  have hpw0 : password ≠ "" := by
    intro he
    rw [he] at hlen
    exact absurd hlen (by decide)
  have hc1 : ¬(name = "" || email = "" || password = "" : Prop) := by
    simp [hname0, hemail0, hpw0]
  have hvalid : validUserDoc
      ⟨freshId, normEmail email, jsTrim name, none, "email", none,
        password, "system", true, true, true, true, "local"⟩ = true := by
    simp [validUserDoc, hmodel, hname, hpw0]
  constructor
  · rintro ⟨u, hu, hue⟩
    cases hfind : users.find? (fun x => x.email == normEmail email) with
    | none =>
      have := List.find?_eq_none.mp hfind u hu
      simp [hue] at this
    | some u0 =>
      simp only [registerPOST, hfmt, Bool.not_true, Bool.false_eq_true, if_false,
        if_neg hc1, if_neg (Nat.not_lt.mpr hlen), hfind]
  · intro hfind
    constructor
    · rintro ⟨u, hu, hprov, hid⟩
      have hconf : authIndexConflict
          ⟨freshId, normEmail email, jsTrim name, none, "email", none,
            password, "system", true, true, true, true, "local"⟩ users = true := by
        apply List.any_eq_true.mpr
        exact ⟨u, hu, by simp [authIndexConflict, hprov, hid]⟩
      simp only [registerPOST, hfmt, Bool.not_true, Bool.false_eq_true, if_false,
        if_neg hc1, if_neg (Nat.not_lt.mpr hlen), hfind, hvalid, if_true, hconf]
    · intro hnoconf
      have hconf : authIndexConflict
          ⟨freshId, normEmail email, jsTrim name, none, "email", none,
            password, "system", true, true, true, true, "local"⟩ users = false := by
        apply List.any_eq_false.mpr
        intro u hu
        have hnu := hnoconf u hu
        simp only [Bool.and_eq_true, beq_iff_eq]
        exact fun hc => hnu ⟨hc.1, hc.2⟩
      simp only [registerPOST, hfmt, Bool.not_true, Bool.false_eq_true, if_false,
        if_neg hc1, if_neg (Nat.not_lt.mpr hlen), hfind, hvalid, if_true, hconf]

/-- Witness for the amended C10: with one stored email-provider user, a
fresh email still fails with 500 on the (authProvider, authId) index;
on an empty user list the same registration answers 201 and appends the
one new user. -/
theorem register_creates_or_conflicts_witness :
    registerPOST (fun s => s) 2 "Bob" "b@c.com" "password1"
        [⟨1, "a@b.com", "Alice", none, "email", none, "hashed", "system",
          true, true, true, true, "local"⟩]
      = (ApiResult.err 500 "Failed to create user",
         [⟨1, "a@b.com", "Alice", none, "email", none, "hashed", "system",
           true, true, true, true, "local"⟩]) ∧
    registerPOST (fun s => s) 1 "Alice" "a@b.com" "password1" []
      = (ApiResult.ok 201 ⟨1, normEmail "a@b.com", jsTrim "Alice"⟩,
         [] ++ [⟨1, normEmail "a@b.com", jsTrim "Alice", none, "email", none,
           (fun s : String => s) "password1", "system", true, true, true, true, "local"⟩]) :=
  ⟨((register_creates_or_conflicts (fun s => s) 2 "Bob" "b@c.com" "password1"
      [⟨1, "a@b.com", "Alice", none, "email", none, "hashed", "system",
        true, true, true, true, "local"⟩]
      (by decide) (by decide) (by decide) (by decide)).2 (by decide)).1
    ⟨⟨1, "a@b.com", "Alice", none, "email", none, "hashed", "system",
        true, true, true, true, "local"⟩, by decide, by decide, by decide⟩,
   ((register_creates_or_conflicts (fun s => s) 1 "Alice" "a@b.com" "password1" []
      (by decide) (by decide) (by decide) (by decide)).2 rfl).2 (by decide)⟩

end Blivalley
